import Mathlib

/-!
Verification of the reparameterisation core of `nessai-gw`.

The source operates elementwise on numpy structured arrays whose fields are
angles (multiples and fractions of pi).  The shallow embedding below models a
single sample of such a batch, with every angle represented exactly as a
rational multiple of pi: a field value `q : Rat` stands for the angle
`q * pi` radians.  Under this encoding the constants of the source translate
as `pi / 2 = 1/2`, `pi = 1`, `2 * pi = 2`, and `numpy.mod(x, m)` becomes the
rational floor-mod `qmod`.  All source arithmetic on these angles is exact in
this representation, so floating-point tolerances in the specification are
subsumed by exact equality.
-/

/-- Helper for the rational embedding of `numpy.mod`: `qmod a m = a - m * ⌊a / m⌋`,
which for `m > 0` is the unique representative of `a` modulo `m` in `[0, m)`,
exactly as `numpy.mod` with a positive modulus. -/
def qmod (a m : ℚ) : ℚ := a - m * ⌊a / m⌋

theorem qmod_nonneg (a : ℚ) {m : ℚ} (hm : 0 < m) : 0 ≤ qmod a m := by
  unfold qmod
  rw [sub_nonneg]
  calc m * (⌊a / m⌋ : ℚ) ≤ m * (a / m) := by
        exact mul_le_mul_of_nonneg_left (Int.floor_le _) hm.le
    _ = a := by field_simp

theorem qmod_lt (a : ℚ) {m : ℚ} (hm : 0 < m) : qmod a m < m := by
  unfold qmod
  have h := Int.lt_floor_add_one (a / m)
  have h2 : a / m * m < ((⌊a / m⌋ : ℚ) + 1) * m := by
    exact mul_lt_mul_of_pos_right h hm
  rw [div_mul_cancel₀ a hm.ne.symm] at h2
  nlinarith

theorem qmod_eq_self {a m : ℚ} (h0 : 0 ≤ a) (h1 : a < m) : qmod a m = a := by
  have hm : 0 < m := lt_of_le_of_lt h0 h1
  unfold qmod
  have hf : ⌊a / m⌋ = 0 := by
    rw [Int.floor_eq_zero_iff]
    constructor
    · exact div_nonneg h0 hm.le
    · rw [div_lt_one hm]; exact h1
  rw [hf]
  simp

theorem qmod_add_int_mul (a : ℚ) (k : ℤ) {m : ℚ} (hm : 0 < m) :
    qmod (a + k * m) m = qmod a m := by
  unfold qmod
  have hdiv : (a + k * m) / m = a / m + k := by
    field_simp
  rw [hdiv, Int.floor_add_int]
  push_cast
  ring

theorem qmod_qmod_add (a b : ℚ) {m : ℚ} (hm : 0 < m) :
    qmod (qmod a m + b) m = qmod (a + b) m := by
  have h : qmod a m + b = (a + b) + (-⌊a / m⌋ : ℤ) * m := by
    unfold qmod
    push_cast
    ring
  rw [h, qmod_add_int_mul _ _ hm]

namespace LISAExtrinsicSymmetry

/-- One sample of the physical batch `x`.  Field values are the angles of the
five roles of `LISAExtrinsicSymmetry` (ecliptic longitude `lambda`, ecliptic
latitude `beta`, polarization `psi`, inclination `iota`, and orbital `phase`),
each given as a rational multiple of pi.  This models the configuration in
which a phase parameter is present, so `n_modes = 16`. -/
structure LisaSample where
  lam : ℚ
  beta : ℚ
  psi : ℚ
  iota : ℚ
  phase : ℚ
  deriving DecidableEq, Repr

/-- One sample of the prime batch `x_prime` produced by `fold` when
`include_mode_index = True`: the five folded fields plus the discrete
`mode_index` field. -/
structure LisaPrime where
  lam_folded : ℚ
  beta_folded : ℚ
  psi_folded : ℚ
  iota_folded : ℚ
  phase_folded : ℚ
  mode_index : ℤ
  deriving DecidableEq, Repr

/-- Embedding of the namedtuple `ModeID` of `lisa.py` (integer bin indices,
numpy integers modelled as `ℤ`). -/
structure ModeID where
  long_num : ℤ
  lat_num : ℤ
  phase_num : ℤ
  index : ℤ
  deriving DecidableEq, Repr

/-- Embedding of `numpy.digitize(x, bins)` (with the default `right=False`)
for a strictly increasing bin list: the number of bin edges `b` with `b ≤ x`. -/
def digitize (x : ℚ) (bins : List ℚ) : ℤ :=
  ((bins.filter (fun b => b ≤ x)).length : ℤ)

/-- Class attribute `lambda_bins = (pi/2) * arange(5)` in units of pi. -/
def lambda_bins : List ℚ := [0, 1/2, 1, 3/2, 2]

/-- Class attribute `beta_bins = [-pi/2, 0, pi/2]` in units of pi. -/
def beta_bins : List ℚ := [-(1/2), 0, 1/2]

/-- Class attribute `phase_bins = pi * arange(3)` in units of pi. -/
def phase_bins : List ℚ := [0, 1, 2]

/-- Embedding of `numpy.where(cond, a, b)` applied to an integer condition
array: an entry is taken from `a` where the condition entry is nonzero
(numpy truthiness) and from `b` where it is zero. -/
def np_where (cond : ℤ) (a b : ℚ) : ℚ := if cond = 0 then b else a

/-- Embedding of `LISAExtrinsicSymmetry.determine_modes` (one sample, with a
phase parameter present): bin indices from `numpy.digitize` minus one, and
the packed index `(long_num + lat_num * 4) + 8 * phase_num`. -/
def determine_modes (x : LisaSample) : ModeID :=
  let long_num := digitize x.lam lambda_bins - 1
  let lat_num := digitize x.beta beta_bins - 1
  let phase_num := digitize x.phase phase_bins - 1
  { long_num := long_num
    lat_num := lat_num
    phase_num := phase_num
    index := (long_num + lat_num * 4) + 8 * phase_num }

/-- Embedding of `LISAExtrinsicSymmetry.unfold_modes`: fixed-radix
decomposition of the mode index.  Python floor division `//` and modulo `%`
on integers are `Int.fdiv` and `Int.fmod`. -/
def unfold_modes (mode_index : ℤ) : ModeID :=
  let phase_num := mode_index.fdiv 8
  let long_num := (mode_index - 8 * phase_num).fmod 4
  let lat_num := (mode_index - 8 * phase_num).fdiv 4
  { long_num := long_num
    lat_num := lat_num
    phase_num := phase_num
    index := mode_index }

/-- Embedding of `LISAExtrinsicSymmetry.fold` for one sample in the
`include_mode_index = True` configuration with a phase parameter.  Mirrors
the source line by line (in units of pi: `0.5 * np.pi` is `1/2`, `np.pi` is
`1`, `2 * np.pi` is `2`); the input `x` and the accumulator `log_j` are
returned unchanged, exactly as in the source. -/
def fold (x : LisaSample) (log_j : ℚ) : LisaSample × LisaPrime × ℚ :=
  let mode_ids := determine_modes x
  let psi0 := qmod (x.psi - (mode_ids.long_num : ℚ) * (1/2)) 1
  let psi1 := np_where mode_ids.lat_num psi0 (1 - psi0)
  let iota1 := np_where mode_ids.lat_num x.iota (1 - x.iota)
  let beta1 := np_where mode_ids.lat_num x.beta (-x.beta)
  let lam1 := qmod (x.lam - (mode_ids.long_num : ℚ) * (1/2)) 2
  let phase1 := qmod x.phase 1
  (x,
   { lam_folded := lam1
     beta_folded := beta1
     psi_folded := psi1
     iota_folded := iota1
     phase_folded := phase1
     mode_index := mode_ids.index },
   log_j)

/-- Core of `LISAExtrinsicSymmetry.unfold`, shared by the recorded-index and
the sampled-index paths: reconstruct the physical sample from the folded
fields and a given mode index (every physical field is overwritten, so the
result does not depend on the previous contents of `x`). -/
def unfold_core (mode_index : ℤ) (xp : LisaPrime) : LisaSample :=
  let mode_ids := unfold_modes mode_index
  let lam1 := qmod (xp.lam_folded + (mode_ids.long_num : ℚ) * (1/2)) 2
  let beta1 := np_where mode_ids.lat_num xp.beta_folded (-xp.beta_folded)
  let iota1 := np_where mode_ids.lat_num xp.iota_folded (1 - xp.iota_folded)
  let psi0 := np_where mode_ids.lat_num xp.psi_folded (1 - xp.psi_folded)
  let psi1 := qmod (psi0 + (mode_ids.long_num : ℚ) * (1/2)) 1
  let phase1 := xp.phase_folded + (mode_ids.phase_num : ℚ)
  { lam := lam1, beta := beta1, psi := psi1, iota := iota1, phase := phase1 }

/-- Embedding of `LISAExtrinsicSymmetry.unfold` in the
`include_mode_index = True` configuration: the recorded `mode_index` field of
`x_prime` is used; `x_prime` and `log_j` are returned unchanged. -/
def unfold (xp : LisaPrime) (log_j : ℚ) : LisaSample × LisaPrime × ℚ :=
  (unfold_core xp.mode_index xp, xp, log_j)

/-- Embedding of `LISAExtrinsicSymmetry.reparameterise`, which delegates to
`fold`. -/
def reparameterise (x : LisaSample) (log_j : ℚ) : LisaSample × LisaPrime × ℚ :=
  fold x log_j

/-- Embedding of `LISAExtrinsicSymmetry.inverse_reparameterise` in the
`include_mode_index = True` configuration, which delegates to `unfold`. -/
def inverse_reparameterise (xp : LisaPrime) (log_j : ℚ) :
    LisaSample × LisaPrime × ℚ :=
  unfold xp log_j

/-- Validity of a physical sample according to the ranges quoted in the
claims: longitude in `[0, 2*pi)`, latitude in `[-pi/2, pi/2]` (closed),
polarization in `[0, pi)`, inclination in `[0, pi)`, phase in `[0, 2*pi)`,
all in units of pi. -/
def canonical (x : LisaSample) : Prop :=
  0 ≤ x.lam ∧ x.lam < 2 ∧
  -(1/2) ≤ x.beta ∧ x.beta ≤ 1/2 ∧
  0 ≤ x.psi ∧ x.psi < 1 ∧
  0 ≤ x.iota ∧ x.iota < 1 ∧
  0 ≤ x.phase ∧ x.phase < 2

instance (x : LisaSample) : Decidable (canonical x) := by
  unfold canonical
  infer_instance

/-- Validity with the latitude range open at the upper end,
`beta ∈ [-pi/2, pi/2)`: the half-open domain on which the fold is actually
invertible. -/
def canonicalStrict (x : LisaSample) : Prop :=
  0 ≤ x.lam ∧ x.lam < 2 ∧
  -(1/2) ≤ x.beta ∧ x.beta < 1/2 ∧
  0 ≤ x.psi ∧ x.psi < 1 ∧
  0 ≤ x.iota ∧ x.iota < 1 ∧
  0 ≤ x.phase ∧ x.phase < 2

instance (x : LisaSample) : Decidable (canonicalStrict x) := by
  unfold canonicalStrict
  infer_instance

end LISAExtrinsicSymmetry

/-- Helper predicate on `Except` results: `is_error e = true` exactly when the
modelled Python call raised. -/
def is_error {ε α : Type} (e : Except ε α) : Bool :=
  match e with
  | .error _ => true
  | .ok _ => false

/-- Embedding of a Python dictionary lookup `prior_bounds[name]` on a
bounds table represented as an association list; a missing key raises
(`KeyError`). -/
def lookup_bounds (prior_bounds : List (String × ℚ × ℚ)) (name : String) :
    Except String (ℚ × ℚ) :=
  match prior_bounds.find? (fun e => e.1 = name) with
  | some e => .ok e.2
  | none => .error "KeyError"

namespace LISAExtrinsicSymmetry

/-- Class attribute `known_lambda_parameters`. -/
def known_lambda_parameters : List String := ["eclipticlongitude", "lambda"]

/-- Class attribute `known_beta_parameters`. -/
def known_beta_parameters : List String := ["eclipticlatitude", "beta"]

/-- Class attribute `known_psi_parameters`. -/
def known_psi_parameters : List String := ["polarization", "psi"]

/-- Class attribute `known_iota_parameters`. -/
def known_iota_parameters : List String := ["iota", "inclination"]

/-- Class attribute `known_phase_parameters`. -/
def known_phase_parameters : List String := ["phase", "coa_phase"]

/-- Embedding of `LISAExtrinsicSymmetry.determine_parameter`: intersect the
known names with the declared parameters; more than one match or (for a
required role) no match raises. -/
def determine_parameter (parameters : List String) (known : List String)
    (required : Bool) : Except String (Option String) :=
  let names := known.filter (fun n => parameters.contains n)
  if names.length > 1 then .error "Multiple parameters match"
  else
    match names with
    | [] => if required then .error "No parameters match" else .ok none
    | n :: _ => .ok (some n)

/-- Embedding of a role setter of `LISAExtrinsicSymmetry` (the
`lambda_parameter`, `beta_parameter`, ... property setters): infer the name
when none is given (returning `none` only for the optional phase role), then
validate the prior bounds of the resolved parameter against the canonical
range `[lo, hi]` for the role; any mismatch raises.  `numpy.isclose` on the
checked endpoints is modelled as exact rational equality. -/
def set_role (parameters : List String) (prior_bounds : List (String × ℚ × ℚ))
    (given : Option String) (known : List String) (required : Bool)
    (lo hi : ℚ) : Except String (Option String) := do
  let name? ← match given with
    | some n => pure (some n)
    | none => determine_parameter parameters known required
  match name? with
  | none => pure none
  | some name => do
      let b ← lookup_bounds prior_bounds name
      if b.1 ≠ lo then throw "RuntimeError"
      else if b.2 ≠ hi then throw "RuntimeError"
      else pure (some name)

/-- Resolved role bindings of a `LISAExtrinsicSymmetry` instance (the
mandatory roles are `some` whenever construction succeeds; the phase role
may be absent). -/
structure LisaRoles where
  lambda_parameter : Option String
  beta_parameter : Option String
  psi_parameter : Option String
  iota_parameter : Option String
  phase_parameter : Option String
  deriving DecidableEq, Repr

/-- State of a successfully constructed `LISAExtrinsicSymmetry`. -/
structure LisaConfig where
  parameters : List String
  roles : LisaRoles
  include_mode_index : Bool
  estimate_mode_weights : Bool
  minimum_mode_weight : Option ℚ
  prime_parameters : List String
  mode_weights : Option (List ℚ)
  deriving DecidableEq, Repr

/-- Embedding of `LISAExtrinsicSymmetry.__init__`, in the source order: the
five role setters run first (each may raise), the flags and prime parameter
names are stored, then the mutual-exclusion check
`estimate_mode_weights and include_mode_index` raises, and finally
`mode_index` is appended to the prime parameters when the index is carried. -/
def construct (parameters : List String) (prior_bounds : List (String × ℚ × ℚ))
    (include_mode_index estimate_mode_weights : Bool)
    (minimum_mode_weight : Option ℚ)
    (lambda_parameter beta_parameter psi_parameter iota_parameter
      phase_parameter : Option String) : Except String LisaConfig := do
  let lam ← set_role parameters prior_bounds lambda_parameter
    known_lambda_parameters true 0 2
  let beta ← set_role parameters prior_bounds beta_parameter
    known_beta_parameters true (-(1/2)) (1/2)
  let psi ← set_role parameters prior_bounds psi_parameter
    known_psi_parameters true 0 1
  let iota ← set_role parameters prior_bounds iota_parameter
    known_iota_parameters true 0 1
  let phase ← set_role parameters prior_bounds phase_parameter
    known_phase_parameters false 0 2
  let prime := parameters.map (fun p => p ++ "_folded")
  if estimate_mode_weights && include_mode_index then
    throw "Cannot estimate mode weights with `mode_index=True`"
  else
    pure
      { parameters := parameters
        roles :=
          { lambda_parameter := lam, beta_parameter := beta,
            psi_parameter := psi, iota_parameter := iota,
            phase_parameter := phase }
        include_mode_index := include_mode_index
        estimate_mode_weights := estimate_mode_weights
        minimum_mode_weight := minimum_mode_weight
        prime_parameters :=
          if include_mode_index then prime ++ ["mode_index"] else prime
        mode_weights := none }

/-- Number of modes in the modelled configuration: a phase parameter is
present, so `n_modes = 16`. -/
def n_modes : ℕ := 16

/-- Embedding of `numpy.bincount(l, minlength=m)` for non-negative integer
input: the result length is the maximum of `minlength` and one more than the
largest input value, and entry `i` counts the occurrences of `i`. -/
def bincount (l : List ℕ) (minlength : ℕ) : List ℕ :=
  let n := Nat.max minlength (l.foldr (fun a b => Nat.max (a + 1) b) 0)
  (List.range n).map (fun i => l.count i)

/-- Mode indices of a batch followed by the `numpy.bincount` call of
`update`; `numpy.bincount` raises on negative input (possible only for
samples outside the declared prior ranges). -/
def mode_counts (xs : List LisaSample) : Except String (List ℕ) :=
  let idxs := xs.map (fun x => (determine_modes x).index)
  if idxs.any (fun i => i < 0) then
    .error "ValueError: bincount input must be non-negative"
  else .ok (bincount (idxs.map Int.toNat) n_modes)

/-- Embedding of the minimum-weight clamp of `update`: Python evaluates
`if self.minimum_mode_weight:` with truthiness, so both `None` and a zero
floor disable the clamp. -/
def apply_minimum_weight (ws : List ℚ) (minimum_mode_weight : Option ℚ) :
    List ℚ :=
  match minimum_mode_weight with
  | none => ws
  | some f => if f = 0 then ws else ws.map (fun w => max w f)

/-- Embedding of the `estimate_mode_weights` branch of
`LISAExtrinsicSymmetry.update`: empirical counts per mode, normalised,
optionally clamped to the floor, then renormalised (the final division by
`mode_weights.sum()` runs unconditionally in the source).  The batch must be
non-empty for the first normalisation to be meaningful (numpy produces NaN
for an empty batch; rational division by zero would give `0` here, so the
theorems assume a non-empty batch). -/
def update_mode_weights (xs : List LisaSample)
    (minimum_mode_weight : Option ℚ) : Except String (List ℚ) := do
  let counts ← mode_counts xs
  let total : ℚ := (counts.sum : ℚ)
  let mode_weights := counts.map (fun (c : ℕ) => ((c : ℚ)) / total)
  let clamped := apply_minimum_weight mode_weights minimum_mode_weight
  pure (clamped.map (fun w => w / clamped.sum))

/-- Model of `numpy.random.Generator.choice(n, size=..., p=p)` as used by
`sample_mode_index`, for a single drawn entry.  The generator is represented
by an oracle value `u`; the draw returned on success is `u % n` (the
distribution itself, uniform for `p=None` and weighted otherwise, is not
modelled — only the success/failure behaviour and the support).  With
`p=None` numpy performs no validation and draws uniformly; with an explicit
`p` numpy validates the length, non-negativity and normalisation of `p` and
raises `ValueError` otherwise. -/
def rng_choice (n : ℕ) (p : Option (List ℚ)) (u : ℕ) : Except String ℕ :=
  match p with
  | none => .ok (u % n)
  | some w =>
      if w.length ≠ n then .error "ValueError: a and p must have same size"
      else if w.any (fun q => q < 0) then
        .error "ValueError: probabilities are not non-negative"
      else if w.sum ≠ 1 then
        .error "ValueError: probabilities do not sum to 1"
      else .ok (u % n)

/-- Embedding of `LISAExtrinsicSymmetry.sample_mode_index`: when
`estimate_mode_weights` is set the stored `mode_weights` (possibly still
`None`) are passed to the generator as `p`; otherwise `p` is omitted. -/
def sample_mode_index (estimate_mode_weights : Bool)
    (mode_weights : Option (List ℚ)) (u : ℕ) : Except String ℕ :=
  if estimate_mode_weights then rng_choice n_modes mode_weights u
  else rng_choice n_modes none u

/-- Embedding of `LISAExtrinsicSymmetry.unfold` in the
`include_mode_index = False` configuration: the mode index is drawn by
`sample_mode_index` and the sample is reconstructed by the shared inverse;
the `mode_index` field of `xp` is ignored (that field does not exist in this
configuration). -/
def unfold_sampled (estimate_mode_weights : Bool)
    (mode_weights : Option (List ℚ)) (xp : LisaPrime) (log_j : ℚ) (u : ℕ) :
    Except String (LisaSample × LisaPrime × ℚ) := do
  let m ← sample_mode_index estimate_mode_weights mode_weights u
  pure (unfold_core (m : ℤ) xp, xp, log_j)

end LISAExtrinsicSymmetry

namespace DeltaPhaseReparameterisation

/-- One sample of the physical batch for the delta-phase transform: the
`phase` parameter plus the required auxiliary fields `psi` and `theta_jn`,
as rational multiples of pi. -/
structure DPSample where
  phase : ℚ
  psi : ℚ
  theta_jn : ℚ
  deriving DecidableEq, Repr

/-- One sample of the prime batch: the single `delta_phase` field. -/
structure DPPrime where
  delta_phase : ℚ
  deriving DecidableEq, Repr

/-- Exact embedding of `numpy.sign(numpy.cos(q * pi))` for rational `q`:
the cosine of `q * pi` is positive for `q mod 2` in `[0, 1/2)` or
`(3/2, 2)`, zero at `1/2` and `3/2`, and negative in between
(`numpy.sign(0) = 0`). -/
def sign_cos (q : ℚ) : ℚ :=
  let r := qmod q 2
  if r < 1/2 then 1
  else if r = 1/2 then 0
  else if r < 3/2 then -1
  else if r = 3/2 then 0
  else 1

/-- Embedding of `DeltaPhaseReparameterisation.reparameterise` for one
sample: `delta_phase = phase + sign(cos(theta_jn)) * psi`, with no modular
reduction; `log_j` is returned unchanged. -/
def reparameterise (x : DPSample) (log_j : ℚ) : DPPrime × ℚ :=
  ({ delta_phase := x.phase + sign_cos x.theta_jn * x.psi }, log_j)

/-- Embedding of `DeltaPhaseReparameterisation.inverse_reparameterise` for
one sample: the sign is recomputed from the `psi` and `theta_jn` fields of
the physical batch at call time, and the result is wrapped with
`numpy.mod(..., 2 * pi)` (`2 * pi` is `2` in units of pi); `log_j` is
returned unchanged. -/
def inverse_reparameterise (psi theta_jn : ℚ) (xp : DPPrime) (log_j : ℚ) :
    ℚ × ℚ :=
  (qmod (xp.delta_phase - sign_cos theta_jn * psi) 2, log_j)

end DeltaPhaseReparameterisation

namespace Registry

/-- Tags for the transform classes stored in the registry: the classes
defined by this repository, the host-library classes it registers, and a
stand-in for arbitrary further host-library classes. -/
inductive RClass where
  | DistanceReparameterisation
  | DeltaPhaseReparameterisation
  | RescaleToBounds
  | AnglePair
  | Base (name : String)
  deriving DecidableEq, Repr

/-- Values of the default keyword-argument dictionaries registered alongside
each class. -/
inductive KwVal where
  | b (x : Bool)
  | s (x : String)
  deriving DecidableEq, Repr

/-- A registry entry: a class tag plus its default keyword arguments. -/
abbrev Entry := RClass × List (String × KwVal)

/-- A Python dictionary from string keys to entries, modelled as an
association list with at most one binding per key, in insertion order. -/
abbrev Reg := List (String × Entry)

/-- Key membership test of a Python dictionary. -/
def dict_contains (d : Reg) (k : String) : Bool :=
  d.any (fun e => e.1 = k)

/-- Lookup in a Python dictionary. -/
def dict_get (d : Reg) (k : String) : Option Entry :=
  (d.find? (fun e => e.1 = k)).map (fun e => e.2)

/-- Assignment `d[k] = v` in a Python dictionary: an existing binding is
overwritten in place, a new key is appended in insertion order. -/
def dict_set (d : Reg) (k : String) (v : Entry) : Reg :=
  if dict_contains d k then d.map (fun e => if e.1 = k then (k, v) else e)
  else d ++ [(k, v)]

/-- Embedding of Python `d.update(other)` (the plain `dict.update` inherited
by the host-library class `ReparameterisationDict`, which subclasses `dict`
without overriding `update`): every binding of `other` is assigned into `d`,
so on a key collision the entry of `other` wins. -/
def dict_update (d other : Reg) : Reg :=
  other.foldl (fun acc e => dict_set acc e.1 e.2) d

/-- Embedding of `ReparameterisationDict.add_reparameterisation` at the
level of this model: adding a key that is already present is an error,
otherwise the binding is appended. -/
def add_reparameterisation (d : Reg) (k : String) (v : Entry) :
    Except String Reg :=
  if dict_contains d k then .error ("Key already exists: " ++ k)
  else .ok (d ++ [(k, v)])

/-- Embedding of the construction of `known_reparameterisations` in
`reparameterisations/__init__.py`: the eight domain entries are added in
source order, then `known_reparameterisations.update(base_reparameterisations)`
merges the host-library defaults into the dictionary.  The host defaults are
an arbitrary parameter `base`, since they live outside this repository. -/
def known_reparameterisations (base : Reg) : Except String Reg := do
  let d ← add_reparameterisation [] "distance"
    (.DistanceReparameterisation,
      [("boundary_inversion", .b true), ("detect_edges", .b true),
       ("inversion_type", .s "duplicate")])
  let d ← add_reparameterisation d "time"
    (.RescaleToBounds, [("offset", .b true), ("update_bounds", .b true)])
  let d ← add_reparameterisation d "sky-ra-dec"
    (.AnglePair, [("convention", .s "ra-dec")])
  let d ← add_reparameterisation d "sky-az-zen"
    (.AnglePair, [("convention", .s "az-zen")])
  let d ← add_reparameterisation d "mass_ratio"
    (.RescaleToBounds,
      [("detect_edges", .b true), ("boundary_inversion", .b true),
       ("inversion_type", .s "duplicate"), ("update_bounds", .b true)])
  let d ← add_reparameterisation d "mass"
    (.RescaleToBounds, [("update_bounds", .b true)])
  let d ← add_reparameterisation d "delta_phase"
    (.DeltaPhaseReparameterisation, [])
  let d ← add_reparameterisation d "delta-phase"
    (.DeltaPhaseReparameterisation, [])
  pure (dict_update d base)

/-- Embedding of `get_reparameterisation` of `reparameterisations/utils.py`
for a string identifier.  Modelled from the spec: the host-library
`get_reparameterisation(name, defaults=...)` that it delegates to resolves a
registered string key in `defaults` and fails for unregistered strings. -/
def get_reparameterisation (name : String) (base : Reg) :
    Except String Entry := do
  let known ← known_reparameterisations base
  match dict_get known name with
  | some entry => pure entry
  | none => throw ("Unknown reparameterisation: " ++ name)

end Registry

namespace DistanceReparameterisation

/-- Capability flags of a distance converter.  Modelled from the spec: the
module `distance_converters` is part of this repository but not available
here; per the spec a converter exposes `has_conversion` (false means the
identity map) and `has_jacobian` (an analytic log-Jacobian is available). -/
structure Converter where
  has_conversion : Bool
  has_jacobian : Bool
  deriving DecidableEq, Repr

/-- Modelled from the spec: `get_distance_converter(prior)` selects the
concrete strategy by the `prior` keyword — power-law (closed form, analytic
Jacobian), uniform-comoving-volume (lookup table, no analytic Jacobian), or
the identity converter otherwise. -/
def get_distance_converter (prior : Option String) : Converter :=
  if prior = some "power-law" then { has_conversion := true, has_jacobian := true }
  else if prior = some "uniform-comoving-volume" then
    { has_conversion := true, has_jacobian := false }
  else { has_conversion := false, has_jacobian := false }

/-- State of a successfully constructed `DistanceReparameterisation`. -/
structure DistanceConfig where
  parameters : List String
  has_prime_prior : Bool
  requires_prime_prior : Bool
  d_min : ℚ
  d_max : ℚ
  allowed_bounds : List String
  allow_both : Bool
  deriving DecidableEq, Repr

/-- Embedding of `DistanceReparameterisation.__init__` (after the
`isinstance(parameters, str)` list wrapping): the parameter-cardinality
check runs first and raises for more than one name; then the converter is
selected, the bounds of the single parameter are read (`IndexError` for an
empty list, `KeyError` for a missing bounds entry), and the prime-prior
flags are derived from the converter capabilities as in lines 88-99 of
`distance.py`. -/
def construct (parameters : List String) (prior : Option String)
    (prior_bounds : List (String × ℚ × ℚ)) (allowed_bounds : List String)
    (allow_both : Bool) : Except String DistanceConfig :=
  if parameters.length > 1 then
    .error "DistanceReparameterisation only supports one parameter"
  else
    match parameters with
    | [] => .error "IndexError"
    | p :: _ => do
        let converter := get_distance_converter prior
        let b ← lookup_bounds prior_bounds p
        pure
          { parameters := parameters
            has_prime_prior := converter.has_conversion
            requires_prime_prior :=
              converter.has_conversion && !converter.has_jacobian
            d_min := b.1
            d_max := b.2
            allowed_bounds := allowed_bounds
            allow_both := allow_both }

end DistanceReparameterisation

/-!
Theorems.  Helper lemmas come first in each namespace; the claim theorems
are marked with their claim identifiers.
-/

theorem qmod_one_add_one {a : ℚ} (h1 : 1 ≤ a) (h2 : a < 2) :
    qmod a 1 + 1 = a := by
  have hrw : a = (a - 1) + (1:ℤ) * 1 := by push_cast; ring
  rw [show qmod a 1 = qmod ((a - 1) + (1:ℤ) * 1) 1 from by rw [← hrw]]
  rw [qmod_add_int_mul _ _ one_pos]
  rw [qmod_eq_self (by linarith) (by linarith)]
  ring

namespace LISAExtrinsicSymmetry

theorem lat_num_cases {b : ℚ} (hl : -(1/2) ≤ b) (hu : b < 1/2) :
    digitize b beta_bins - 1 = if 0 ≤ b then 1 else 0 := by
  have e1 : decide ((-(1/2) : ℚ) ≤ b) = true := decide_eq_true hl
  have e3 : decide (((1/2) : ℚ) ≤ b) = false := decide_eq_false (by linarith)
  by_cases h : 0 ≤ b
  · have e2 : decide ((0:ℚ) ≤ b) = true := decide_eq_true h
    simp only [digitize, beta_bins, List.filter, e1, e2, e3, if_pos h]
    norm_num
  · have e2 : decide ((0:ℚ) ≤ b) = false := decide_eq_false h
    simp only [digitize, beta_bins, List.filter, e1, e2, e3, if_neg h]
    norm_num

theorem phase_num_cases {p : ℚ} (h0 : 0 ≤ p) (h2 : p < 2) :
    digitize p phase_bins - 1 = if 1 ≤ p then 1 else 0 := by
  have e1 : decide ((0:ℚ) ≤ p) = true := decide_eq_true h0
  have e3 : decide ((2:ℚ) ≤ p) = false := decide_eq_false (by linarith)
  by_cases h : (1:ℚ) ≤ p
  · have e2 : decide ((1:ℚ) ≤ p) = true := decide_eq_true h
    simp only [digitize, phase_bins, List.filter, e1, e2, e3, if_pos h]
    norm_num
  · have e2 : decide ((1:ℚ) ≤ p) = false := decide_eq_false h
    simp only [digitize, phase_bins, List.filter, e1, e2, e3, if_neg h]
    norm_num

theorem long_num_bounds {a : ℚ} (h0 : 0 ≤ a) (h2 : a < 2) :
    0 ≤ digitize a lambda_bins - 1 ∧ digitize a lambda_bins - 1 < 4 := by
  have e0 : decide ((0:ℚ) ≤ a) = true := decide_eq_true h0
  have e4 : decide ((2:ℚ) ≤ a) = false := decide_eq_false (by linarith)
  rcases lt_or_le a (1/2) with hA | hA
  · have eA : decide (((1/2):ℚ) ≤ a) = false := decide_eq_false (by linarith)
    have eB : decide ((1:ℚ) ≤ a) = false := decide_eq_false (by linarith)
    have eC : decide (((3/2):ℚ) ≤ a) = false := decide_eq_false (by linarith)
    simp only [digitize, lambda_bins, List.filter, e0, e4, eA, eB, eC]
    norm_num
  · rcases lt_or_le a 1 with hB | hB
    · have eA : decide (((1/2):ℚ) ≤ a) = true := decide_eq_true hA
      have eB : decide ((1:ℚ) ≤ a) = false := decide_eq_false (by linarith)
      have eC : decide (((3/2):ℚ) ≤ a) = false := decide_eq_false (by linarith)
      simp only [digitize, lambda_bins, List.filter, e0, e4, eA, eB, eC]
      norm_num
    · rcases lt_or_le a (3/2) with hC | hC
      · have eA : decide (((1/2):ℚ) ≤ a) = true := decide_eq_true hA
        have eB : decide ((1:ℚ) ≤ a) = true := decide_eq_true hB
        have eC : decide (((3/2):ℚ) ≤ a) = false := decide_eq_false (by linarith)
        simp only [digitize, lambda_bins, List.filter, e0, e4, eA, eB, eC]
        norm_num
      · have eA : decide (((1/2):ℚ) ≤ a) = true := decide_eq_true hA
        have eB : decide ((1:ℚ) ≤ a) = true := decide_eq_true hB
        have eC : decide (((3/2):ℚ) ≤ a) = true := decide_eq_true hC
        simp only [digitize, lambda_bins, List.filter, e0, e4, eA, eB, eC]
        norm_num

theorem unfold_modes_encode {L T P : ℤ} (hL0 : 0 ≤ L) (hL : L < 4)
    (hT : T = 0 ∨ T = 1) (hP : P = 0 ∨ P = 1) :
    unfold_modes ((L + T * 4) + 8 * P) =
      ⟨L, T, P, (L + T * 4) + 8 * P⟩ := by
  rcases hT with hT | hT <;> rcases hP with hP | hP <;> subst hT <;> subst hP <;>
    interval_cases L <;> decide

theorem unfold_core_fold (x : LisaSample) (log_j : ℚ)
    (h : canonicalStrict x) :
    unfold_core ((fold x log_j).2.1.mode_index) ((fold x log_j).2.1) = x := by
  obtain ⟨xl, xb, xp, xi, xf⟩ := x
  obtain ⟨hl0, hl2, hbl, hbu, hp0, hp1, hi0, hi1, hf0, hf2⟩ := h
  have hT := lat_num_cases hbl hbu
  have hP := phase_num_cases hf0 hf2
  obtain ⟨hL0, hL4⟩ := long_num_bounds hl0 hl2
  simp only [fold, determine_modes] at *
  rw [hT, hP]
  rcases Classical.em (0 ≤ xb) with hb | hb <;>
    rcases Classical.em (1 ≤ xf) with hf | hf
  · rw [if_pos hb, if_pos hf]
    simp only [unfold_core]
    rw [unfold_modes_encode hL0 hL4 (Or.inr rfl) (Or.inr rfl)]
    simp only [np_where, LisaSample.mk.injEq]
    norm_num
    refine ⟨?_, ?_, ?_⟩
    · rw [qmod_qmod_add _ _ (by norm_num : (0:ℚ) < 2), sub_add_cancel]
      exact qmod_eq_self hl0 hl2
    · rw [qmod_qmod_add _ _ (by norm_num : (0:ℚ) < 1), sub_add_cancel]
      exact qmod_eq_self hp0 hp1
    · exact qmod_one_add_one hf hf2
  · rw [if_pos hb, if_neg hf]
    simp only [unfold_core]
    rw [unfold_modes_encode hL0 hL4 (Or.inr rfl) (Or.inl rfl)]
    simp only [np_where, LisaSample.mk.injEq]
    norm_num
    refine ⟨?_, ?_, ?_⟩
    · rw [qmod_qmod_add _ _ (by norm_num : (0:ℚ) < 2), sub_add_cancel]
      exact qmod_eq_self hl0 hl2
    · rw [qmod_qmod_add _ _ (by norm_num : (0:ℚ) < 1), sub_add_cancel]
      exact qmod_eq_self hp0 hp1
    · exact qmod_eq_self hf0 (lt_of_not_le hf)
  · rw [if_neg hb, if_pos hf]
    simp only [unfold_core]
    rw [unfold_modes_encode hL0 hL4 (Or.inl rfl) (Or.inr rfl)]
    simp only [np_where, LisaSample.mk.injEq]
    norm_num
    refine ⟨?_, ?_, ?_⟩
    · rw [qmod_qmod_add _ _ (by norm_num : (0:ℚ) < 2), sub_add_cancel]
      exact qmod_eq_self hl0 hl2
    · rw [qmod_qmod_add _ _ (by norm_num : (0:ℚ) < 1), sub_add_cancel]
      exact qmod_eq_self hp0 hp1
    · exact qmod_one_add_one hf hf2
  · rw [if_neg hb, if_neg hf]
    simp only [unfold_core]
    rw [unfold_modes_encode hL0 hL4 (Or.inl rfl) (Or.inl rfl)]
    simp only [np_where, LisaSample.mk.injEq]
    norm_num
    refine ⟨?_, ?_, ?_⟩
    · rw [qmod_qmod_add _ _ (by norm_num : (0:ℚ) < 2), sub_add_cancel]
      exact qmod_eq_self hl0 hl2
    · rw [qmod_qmod_add _ _ (by norm_num : (0:ℚ) < 1), sub_add_cancel]
      exact qmod_eq_self hp0 hp1
    · exact qmod_eq_self hf0 (lt_of_not_le hf)

/-- Claim C1 (amended): for every sample with longitude in `[0, 2 pi)`,
latitude in `[-pi/2, pi/2)` (strictly below `pi/2`; the claim's closed upper
endpoint fails, see the counterexample), polarization in `[0, pi)`,
inclination in `[0, pi)` and phase in `[0, 2 pi)`, applying `reparameterise`
(fold, with `include_mode_index = True`) and then `inverse_reparameterise`
(unfold) recovers every parameter field of the sample exactly — hence within
any floating-point tolerance — and the log-Jacobian accumulator is returned
equal to its initial value. -/
theorem c1_lisa_roundtrip_recovers_sample (x : LisaSample) (log_j : ℚ)
    (h : canonicalStrict x) :
    (inverse_reparameterise (reparameterise x log_j).2.1
        (reparameterise x log_j).2.2).1 = x ∧
    (inverse_reparameterise (reparameterise x log_j).2.1
        (reparameterise x log_j).2.2).2.2 = log_j := by
  exact ⟨unfold_core_fold x log_j h, rfl⟩

/-- Witness for C1 at the valid sample
`(lambda, beta, psi, iota, phase) = (5 pi/4, -pi/4, pi/3, 2 pi/3, 3 pi/2)`
with initial log-Jacobian `7`. -/
theorem c1_lisa_roundtrip_recovers_sample_witness :
    canonicalStrict ⟨5/4, -(1/4), 1/3, 2/3, 3/2⟩ ∧
    ((inverse_reparameterise
        (reparameterise ⟨5/4, -(1/4), 1/3, 2/3, 3/2⟩ 7).2.1
        (reparameterise ⟨5/4, -(1/4), 1/3, 2/3, 3/2⟩ 7).2.2).1 =
        ⟨5/4, -(1/4), 1/3, 2/3, 3/2⟩ ∧
      (inverse_reparameterise
        (reparameterise ⟨5/4, -(1/4), 1/3, 2/3, 3/2⟩ 7).2.1
        (reparameterise ⟨5/4, -(1/4), 1/3, 2/3, 3/2⟩ 7).2.2).2.2 = 7) :=
  ⟨by norm_num [canonicalStrict],
    c1_lisa_roundtrip_recovers_sample ⟨5/4, -(1/4), 1/3, 2/3, 3/2⟩ 7
      (by norm_num [canonicalStrict])⟩

/-- Claim C1 counterexample: the sample with latitude exactly `pi/2` (the
closed upper endpoint of the range quoted in the claim) is valid for the
claim, yet the fold/unfold round trip sends its latitude `pi/2` to `-pi/2`
(in units of pi: `1/2` to `-1/2`), a discrepancy far beyond the tolerance
`1e-10` (the radian difference is `pi` times the rational value `1` below). -/
theorem c1_counterexample_beta_pole :
    canonical ⟨0, 1/2, 0, 0, 0⟩ ∧
    (inverse_reparameterise (reparameterise ⟨0, 1/2, 0, 0, 0⟩ 0).2.1
        (reparameterise ⟨0, 1/2, 0, 0, 0⟩ 0).2.2).1.beta = -(1/2) ∧
    ¬(|(inverse_reparameterise (reparameterise ⟨0, 1/2, 0, 0, 0⟩ 0).2.1
        (reparameterise ⟨0, 1/2, 0, 0, 0⟩ 0).2.2).1.beta -
        (⟨0, 1/2, 0, 0, 0⟩ : LisaSample).beta| ≤ 1 / 10 ^ 10) := by
  norm_num [canonical, inverse_reparameterise, reparameterise, fold, unfold,
    unfold_core, determine_modes, unfold_modes, digitize, lambda_bins,
    beta_bins, phase_bins, np_where, qmod, Int.fdiv, Int.fmod]

/-- Claim C2: for every integer `m` in `[0, n_modes)` with `n_modes` equal
to 8 or 16, decomposing `m` with `unfold_modes` and re-encoding the bins as
`long_num + 4 * lat_num + 8 * phase_num` (the packing of `determine_modes`)
yields `m` again. -/
theorem c2_mode_decomposition_bijection (n : ℤ) (hn : n = 8 ∨ n = 16)
    (m : ℤ) (h0 : 0 ≤ m) (hm : m < n) :
    ((unfold_modes m).long_num + (unfold_modes m).lat_num * 4) +
      8 * (unfold_modes m).phase_num = m := by
  have h16 : m < 16 := by rcases hn with h | h <;> omega
  interval_cases m <;> decide

/-- Witness for C2 at `n_modes = 16` and `m = 13`. -/
theorem c2_mode_decomposition_bijection_witness :
    ((16:ℤ) = 8 ∨ (16:ℤ) = 16) ∧ (0 ≤ (13:ℤ)) ∧ ((13:ℤ) < 16) ∧
    ((unfold_modes 13).long_num + (unfold_modes 13).lat_num * 4) +
      8 * (unfold_modes 13).phase_num = 13 :=
  ⟨Or.inr rfl, by decide, by decide,
    c2_mode_decomposition_bijection 16 (Or.inr rfl) 13 (by decide) (by decide)⟩

end LISAExtrinsicSymmetry

namespace LISAExtrinsicSymmetry

theorem lat_num_val {b : ℚ} (hl : -(1/2) ≤ b) :
    digitize b beta_bins - 1 =
      if 1/2 ≤ b then 2 else if 0 ≤ b then 1 else 0 := by
  by_cases h3 : (1/2:ℚ) ≤ b
  · have h2 : (0:ℚ) ≤ b := by linarith
    simp only [digitize, beta_bins, List.filter, decide_eq_true hl,
      decide_eq_true h2, decide_eq_true h3, if_pos h3]
    norm_num
  · by_cases h2 : (0:ℚ) ≤ b
    · simp only [digitize, beta_bins, List.filter, decide_eq_true hl,
        decide_eq_true h2, decide_eq_false h3, if_neg h3, if_pos h2]
      norm_num
    · simp only [digitize, beta_bins, List.filter, decide_eq_true hl,
        decide_eq_false h2, decide_eq_false h3, if_neg h3, if_neg h2]
      norm_num

/-- Claim C5 (amended): for every sample whose fields lie in the canonical
ranges (longitude in `[0, 2 pi)`, latitude in `[-pi/2, pi/2]`, polarization
in `[0, pi)`, inclination in `[0, pi)`, phase in `[0, 2 pi)`), after `fold`
the folded longitude lies in `[0, 2 pi)`, the folded latitude is
non-negative, the folded phase lies in `[0, pi)`, and the folded
polarization lies in the CLOSED interval `[0, pi]`.  The claim's half-open
`[0, pi)` for the folded polarization fails: the reflection `pi - value`
applied in latitude bin 0 yields exactly `pi` whenever the shifted residue
is zero (see the counterexample). -/
theorem c5_fold_canonical_domain (x : LisaSample) (log_j : ℚ)
    (h : canonical x) :
    0 ≤ (fold x log_j).2.1.lam_folded ∧ (fold x log_j).2.1.lam_folded < 2 ∧
    0 ≤ (fold x log_j).2.1.beta_folded ∧
    0 ≤ (fold x log_j).2.1.psi_folded ∧ (fold x log_j).2.1.psi_folded ≤ 1 ∧
    0 ≤ (fold x log_j).2.1.phase_folded ∧
    (fold x log_j).2.1.phase_folded < 1 := by
  obtain ⟨xl, xb, xp, xi, xf⟩ := x
  obtain ⟨hl0, hl2, hbl, hbu, hp0, hp1, hi0, hi1, hf0, hf2⟩ := h
  simp only at hl0 hl2 hbl hbu hp0 hp1 hi0 hi1 hf0 hf2
  simp only [fold, determine_modes, np_where]
  have hq0 := qmod_nonneg
    (xp - ((digitize xl lambda_bins - 1 : ℤ) : ℚ) * (1/2))
    (by norm_num : (0:ℚ) < 1)
  have hq1 := qmod_lt
    (xp - ((digitize xl lambda_bins - 1 : ℤ) : ℚ) * (1/2))
    (by norm_num : (0:ℚ) < 1)
  rw [lat_num_val hbl]
  refine ⟨qmod_nonneg _ (by norm_num), qmod_lt _ (by norm_num), ?_, ?_, ?_,
    qmod_nonneg _ (by norm_num), qmod_lt _ (by norm_num)⟩
  · split_ifs <;> first | omega | linarith
  · split_ifs <;> first | omega | linarith
  · split_ifs <;> first | omega | linarith

/-- Witness for C5 at the valid sample
`(lambda, beta, psi, iota, phase) = (7 pi/4, pi/2, pi/2, pi/2, pi)` with
initial log-Jacobian `3`. -/
theorem c5_fold_canonical_domain_witness :
    canonical ⟨7/4, 1/2, 1/2, 1/2, 1⟩ ∧
    (0 ≤ (fold ⟨7/4, 1/2, 1/2, 1/2, 1⟩ 3).2.1.lam_folded ∧
     (fold ⟨7/4, 1/2, 1/2, 1/2, 1⟩ 3).2.1.lam_folded < 2 ∧
     0 ≤ (fold ⟨7/4, 1/2, 1/2, 1/2, 1⟩ 3).2.1.beta_folded ∧
     0 ≤ (fold ⟨7/4, 1/2, 1/2, 1/2, 1⟩ 3).2.1.psi_folded ∧
     (fold ⟨7/4, 1/2, 1/2, 1/2, 1⟩ 3).2.1.psi_folded ≤ 1 ∧
     0 ≤ (fold ⟨7/4, 1/2, 1/2, 1/2, 1⟩ 3).2.1.phase_folded ∧
     (fold ⟨7/4, 1/2, 1/2, 1/2, 1⟩ 3).2.1.phase_folded < 1) :=
  ⟨by norm_num [canonical],
    c5_fold_canonical_domain ⟨7/4, 1/2, 1/2, 1/2, 1⟩ 3
      (by norm_num [canonical])⟩

/-- Claim C5 counterexample: the canonical sample with
`(lambda, beta, psi, iota, phase) = (0, -pi/4, 0, 0, 0)` lies in latitude
bin 0 with polarization residue 0, so the folded polarization equals exactly
`pi` (value `1` in units of pi), which is outside `[0, pi)`. -/
theorem c5_counterexample_psi_eq_pi :
    canonical ⟨0, -(1/4), 0, 0, 0⟩ ∧
    (fold ⟨0, -(1/4), 0, 0, 0⟩ 0).2.1.psi_folded = 1 ∧
    ¬((fold ⟨0, -(1/4), 0, 0, 0⟩ 0).2.1.psi_folded < 1) := by
  norm_num [canonical, fold, determine_modes, digitize, lambda_bins,
    beta_bins, phase_bins, np_where, qmod]

/-- Claim C3 (amended): on a transform with `estimate_mode_weights = True`
on which `update` has never run (`mode_weights` is `None`), the stochastic
inversion path does NOT raise: `sample_mode_index` passes `p = None` to the
generator, numpy draws uniformly without validating, and
`inverse_reparameterise` reconstructs a sample from the uniformly drawn mode
index. -/
theorem c3_stochastic_inversion_without_update (xp : LisaPrime) (log_j : ℚ)
    (u : ℕ) :
    unfold_sampled true none xp log_j u =
      Except.ok (unfold_core ((u % n_modes : ℕ) : ℤ) xp, xp, log_j) :=
  rfl

/-- Claim C3 counterexample: at concrete inputs the stochastic inversion
with `estimate_mode_weights = True` and `mode_weights = None` succeeds
(raises no error), contradicting the claimed fatal state error. -/
theorem c3_counterexample_no_state_error :
    sample_mode_index true none 9 = Except.ok 9 ∧
    is_error (sample_mode_index true none 9) = false ∧
    is_error (unfold_sampled true none ⟨0, 0, 0, 0, 0, 0⟩ 0 9) = false :=
  ⟨rfl, rfl, rfl⟩

end LISAExtrinsicSymmetry

namespace DeltaPhaseReparameterisation

/-- Claim C8: for every sample with `phase` in `[0, 2 pi)` and any `psi`,
`theta_jn`, `reparameterise` computes
`delta_phase = phase + sign(cos(theta_jn)) * psi`, and
`inverse_reparameterise` with the same `psi` and `theta_jn` values computes
`(delta_phase - sign(cos(theta_jn)) * psi) mod 2 pi`, recovering the
original phase exactly (hence within 1e-10). -/
theorem c8_delta_phase_roundtrip (x : DPSample) (lj lj2 : ℚ)
    (h0 : 0 ≤ x.phase) (h2 : x.phase < 2) :
    (reparameterise x lj).1.delta_phase =
      x.phase + sign_cos x.theta_jn * x.psi ∧
    (inverse_reparameterise x.psi x.theta_jn (reparameterise x lj).1 lj2).1 =
      x.phase := by
  refine ⟨rfl, ?_⟩
  show qmod (x.phase + sign_cos x.theta_jn * x.psi -
      sign_cos x.theta_jn * x.psi) 2 = x.phase
  rw [add_sub_cancel_right]
  exact qmod_eq_self h0 h2

/-- Witness for C8 at `(phase, psi, theta_jn) = (3 pi/2, 3 pi/4, pi/4)`. -/
theorem c8_delta_phase_roundtrip_witness :
    (0 ≤ (⟨3/2, 3/4, 1/4⟩ : DPSample).phase ∧
      (⟨3/2, 3/4, 1/4⟩ : DPSample).phase < 2) ∧
    ((reparameterise ⟨3/2, 3/4, 1/4⟩ 0).1.delta_phase =
        (⟨3/2, 3/4, 1/4⟩ : DPSample).phase +
          sign_cos (⟨3/2, 3/4, 1/4⟩ : DPSample).theta_jn *
            (⟨3/2, 3/4, 1/4⟩ : DPSample).psi ∧
      (inverse_reparameterise (⟨3/2, 3/4, 1/4⟩ : DPSample).psi
          (⟨3/2, 3/4, 1/4⟩ : DPSample).theta_jn
          (reparameterise ⟨3/2, 3/4, 1/4⟩ 0).1 5).1 =
        (⟨3/2, 3/4, 1/4⟩ : DPSample).phase) :=
  ⟨by norm_num, c8_delta_phase_roundtrip ⟨3/2, 3/4, 1/4⟩ 0 5
    (by norm_num) (by norm_num)⟩

/-- Claim C10: `reparameterise` applies no modular reduction: with
`(phase, psi, theta_jn) = (3 pi/2, 3 pi/4, 0)` (positive sign) the produced
`delta_phase = 9 pi/4` exceeds `2 pi`, and with
`(phase, psi, theta_jn) = (pi/4, 3 pi/4, 3 pi/4)` (negative sign) it equals
`-pi/2 < 0`; all inputs lie in the quoted ranges
(`phase` in `[0, 2 pi)`, `psi` in `[0, pi)`, `theta_jn` in `[0, pi)`).
Only `inverse_reparameterise` wraps its result with `mod 2 pi`, so its
output always lies in `[0, 2 pi)`. -/
theorem c10_forward_not_wrapped :
    ((reparameterise ⟨3/2, 3/4, 0⟩ 0).1.delta_phase = 9/4 ∧
      2 < (reparameterise ⟨3/2, 3/4, 0⟩ 0).1.delta_phase) ∧
    ((reparameterise ⟨1/4, 3/4, 3/4⟩ 0).1.delta_phase = -(1/2) ∧
      (reparameterise ⟨1/4, 3/4, 3/4⟩ 0).1.delta_phase < 0) ∧
    (∀ (psi theta : ℚ) (xp : DPPrime) (lj : ℚ),
      0 ≤ (inverse_reparameterise psi theta xp lj).1 ∧
      (inverse_reparameterise psi theta xp lj).1 < 2) := by
  refine ⟨?_, ?_, fun psi theta xp lj =>
    ⟨qmod_nonneg _ (by norm_num), qmod_lt _ (by norm_num)⟩⟩
  · constructor <;> norm_num [reparameterise, sign_cos, qmod]
  · constructor <;> norm_num [reparameterise, sign_cos, qmod]

end DeltaPhaseReparameterisation

/-- Claim C9: for every sample and every initial log-Jacobian value, the
forward and inverse maps of both `DeltaPhaseReparameterisation` and
`LISAExtrinsicSymmetry` return the log-Jacobian accumulator exactly
unchanged (every entry of `log_j` passes through untouched, so the
contribution of these volume-preserving transforms is exactly 0). -/
theorem c9_log_jacobian_unchanged :
    (∀ (x : LISAExtrinsicSymmetry.LisaSample) (lj : ℚ),
        (LISAExtrinsicSymmetry.reparameterise x lj).2.2 = lj) ∧
    (∀ (xp : LISAExtrinsicSymmetry.LisaPrime) (lj : ℚ),
        (LISAExtrinsicSymmetry.inverse_reparameterise xp lj).2.2 = lj) ∧
    (∀ (x : DeltaPhaseReparameterisation.DPSample) (lj : ℚ),
        (DeltaPhaseReparameterisation.reparameterise x lj).2 = lj) ∧
    (∀ (psi theta : ℚ) (xp : DeltaPhaseReparameterisation.DPPrime) (lj : ℚ),
        (DeltaPhaseReparameterisation.inverse_reparameterise
          psi theta xp lj).2 = lj) :=
  ⟨fun _ _ => rfl, fun _ _ => rfl, fun _ _ => rfl, fun _ _ _ _ => rfl⟩

theorem is_error_bind {α β : Type} (e : Except String α)
    (f : α → Except String β) (h : ∀ a, is_error (f a) = true) :
    is_error (e >>= f) = true := by
  cases e with
  | error msg => rfl
  | ok a => exact h a

/-- Claim C7: construction rejects invalid configurations: constructing a
`DistanceReparameterisation` with more than one parameter name raises the
configuration error before any further state is built (the cardinality check
is the first statement of the constructor), and constructing a
`LISAExtrinsicSymmetry` with both `estimate_mode_weights = True` and
`include_mode_index = True` raises a configuration error (either the
mutual-exclusion `RuntimeError`, or an earlier configuration error from role
resolution when the remaining configuration is itself invalid; construction
never succeeds). -/
theorem c7_configuration_rejection :
    (∀ (parameters : List String) (prior : Option String)
        (prior_bounds : List (String × ℚ × ℚ)) (allowed_bounds : List String)
        (allow_both : Bool), parameters.length > 1 →
        DistanceReparameterisation.construct parameters prior prior_bounds
          allowed_bounds allow_both =
          Except.error "DistanceReparameterisation only supports one parameter") ∧
    (∀ (parameters : List String) (prior_bounds : List (String × ℚ × ℚ))
        (minimum_mode_weight : Option ℚ)
        (lam beta psi iota phase : Option String),
        is_error (LISAExtrinsicSymmetry.construct parameters prior_bounds
          true true minimum_mode_weight lam beta psi iota phase) = true) := by
  constructor
  · intro ps prior bounds ab both hlen
    unfold DistanceReparameterisation.construct
    rw [if_pos hlen]
  · intro ps bounds mw lam beta psi iota phase
    simp only [LISAExtrinsicSymmetry.construct]
    apply is_error_bind; intro a1
    apply is_error_bind; intro a2
    apply is_error_bind; intro a3
    apply is_error_bind; intro a4
    apply is_error_bind; intro a5
    rfl

/-- Witness for C7: two parameter names for the distance transform, and both
flags enabled for the fold transform, at concrete arguments. -/
theorem c7_configuration_rejection_witness :
    (["luminosity_distance", "redshift"].length > 1 ∧
      DistanceReparameterisation.construct
        ["luminosity_distance", "redshift"] none [] ["upper"] false =
        Except.error "DistanceReparameterisation only supports one parameter") ∧
    is_error (LISAExtrinsicSymmetry.construct
      ["eclipticlongitude", "eclipticlatitude", "polarization", "iota"]
      [] true true none none none none none none) = true :=
  ⟨⟨by decide,
      c7_configuration_rejection.1 ["luminosity_distance", "redshift"] none []
        ["upper"] false (by decide)⟩,
    c7_configuration_rejection.2
      ["eclipticlongitude", "eclipticlatitude", "polarization", "iota"]
      [] none none none none none none⟩

theorem list_map_div_sum (l : List ℚ) (t : ℚ) :
    (l.map (fun x => x / t)).sum = l.sum / t := by
  induction l with
  | nil => simp
  | cons a tl ih => simp [ih, add_div]

theorem sum_range_count (n : ℕ) :
    ∀ l : List ℕ, (∀ v ∈ l, v < n) →
      ((List.range n).map (fun i => l.count i)).sum = l.length := by
  have hb : ∀ (f : ℕ → ℕ), ((List.range n).map f).sum = ∑ i in Finset.range n, f i :=
    fun f => rfl
  intro l
  induction l with
  | nil => intro _; rw [hb]; simp
  | cons a t ih =>
      intro h
      have ha : a < n := h a (List.mem_cons_self a t)
      have ht : ∀ v ∈ t, v < n := fun v hv => h v (List.mem_cons_of_mem a hv)
      rw [hb]
      calc ∑ i in Finset.range n, (a :: t).count i
          = ∑ i in Finset.range n, (t.count i + if a = i then 1 else 0) := by
            refine Finset.sum_congr rfl ?_
            intro i _
            simp [List.count_cons]
        _ = (∑ i in Finset.range n, t.count i) +
              ∑ i in Finset.range n, (if a = i then 1 else 0) :=
            Finset.sum_add_distrib
        _ = t.length + 1 := by
            rw [← hb (fun i => t.count i), ih ht,
              Finset.sum_ite_eq (Finset.range n) a (fun _ => 1)]
            simp [Finset.mem_range.mpr ha]
        _ = (a :: t).length := by simp

theorem foldr_max_le (n : ℕ) :
    ∀ l : List ℕ, (∀ v ∈ l, v < n) →
      l.foldr (fun a b => Nat.max (a + 1) b) 0 ≤ n := by
  intro l
  induction l with
  | nil => intro _; exact Nat.zero_le n
  | cons a t ih =>
      intro h
      simp only [List.foldr_cons]
      refine Nat.max_le.mpr ⟨h a (List.mem_cons_self a t), ih ?_⟩
      exact fun v hv => h v (List.mem_cons_of_mem a hv)

namespace LISAExtrinsicSymmetry

theorem bincount_minlength (l : List ℕ) (h : ∀ v ∈ l, v < 16) :
    bincount l 16 = (List.range 16).map (fun i => l.count i) := by
  simp only [bincount]
  have h16 : Nat.max 16 (l.foldr (fun a b => Nat.max (a + 1) b) 0) = 16 := by
    have := foldr_max_le 16 l h
    exact Nat.le_antisymm (Nat.max_le.mpr ⟨Nat.le_refl 16, this⟩)
      (Nat.le_max_left _ _)
  rw [h16]

theorem determine_modes_index_bounds (x : LisaSample) (h : canonicalStrict x) :
    0 ≤ (determine_modes x).index ∧ (determine_modes x).index < 16 := by
  obtain ⟨xl, xb, xp, xi, xf⟩ := x
  obtain ⟨hl0, hl2, hbl, hbu, hp0, hp1, hi0, hi1, hf0, hf2⟩ := h
  simp only at hl0 hl2 hbl hbu hp0 hp1 hi0 hi1 hf0 hf2
  simp only [determine_modes]
  rw [lat_num_cases hbl hbu, phase_num_cases hf0 hf2]
  obtain ⟨hL0, hL4⟩ := long_num_bounds hl0 hl2
  split_ifs <;> omega

theorem apply_minimum_weight_ge (ws0 : List ℚ) (mw : Option ℚ) :
    ∀ w ∈ apply_minimum_weight ws0 mw, ∃ v ∈ ws0, v ≤ w := by
  intro w hw
  cases mw with
  | none => exact ⟨w, hw, le_refl w⟩
  | some f =>
      by_cases hf : f = 0
      · simp only [apply_minimum_weight, if_pos hf] at hw
        exact ⟨w, hw, le_refl w⟩
      · simp only [apply_minimum_weight, if_neg hf] at hw
        obtain ⟨v, hv, rfl⟩ := List.mem_map.mp hw
        exact ⟨v, hv, le_max_left v f⟩

theorem apply_minimum_weight_sum_ge (ws0 : List ℚ) (mw : Option ℚ) :
    ws0.sum ≤ (apply_minimum_weight ws0 mw).sum := by
  cases mw with
  | none => exact le_refl _
  | some f =>
      by_cases hf : f = 0
      · simp [apply_minimum_weight, if_pos hf]
      · simp only [apply_minimum_weight, if_neg hf]
        calc ws0.sum = (ws0.map id).sum := by simp
          _ ≤ (ws0.map (fun w => max w f)).sum :=
            List.sum_le_sum (fun i _ => le_max_left i f)

theorem apply_minimum_weight_length (ws0 : List ℚ) (mw : Option ℚ) :
    (apply_minimum_weight ws0 mw).length = ws0.length := by
  cases mw with
  | none => rfl
  | some f =>
      by_cases hf : f = 0
      · simp [apply_minimum_weight, if_pos hf]
      · simp [apply_minimum_weight, if_neg hf]

end LISAExtrinsicSymmetry

theorem ok_bind {α β : Type} (a : α) (f : α → Except String β) :
    (Except.ok a >>= f) = f a := rfl

namespace LISAExtrinsicSymmetry

/-- Claim C6 (amended): for a transform with `estimate_mode_weights = True`,
after `update` on any non-empty batch whose samples lie in the canonical
ranges (with latitude strictly below `pi/2`), the stored mode-weight vector
has length `n_modes = 16`, every entry is non-negative, and the entries sum
to exactly 1; when a non-zero `minimum_mode_weight` floor is configured,
each entry is clamped to at least the floor BEFORE renormalising.  The
claim's final conjunct fails: after renormalisation an entry can drop below
the floor by far more than any tolerance, because the clamped vector sums to
more than 1 (see the counterexample). -/
theorem c6_update_weights (xs : List LisaSample) (mw : Option ℚ)
    (hne : xs ≠ []) (hval : ∀ x ∈ xs, canonicalStrict x) :
    (∃ ws : List ℚ, update_mode_weights xs mw = Except.ok ws ∧
      ws.length = n_modes ∧ (∀ w ∈ ws, 0 ≤ w) ∧ ws.sum = 1) ∧
    (∀ (f : ℚ) (ws0 : List ℚ), f ≠ 0 →
      ∀ w ∈ apply_minimum_weight ws0 (some f), f ≤ w) := by
  constructor
  · -- the update itself
    have hbounds : ∀ i ∈ xs.map (fun x => (determine_modes x).index),
        0 ≤ i ∧ i < 16 := by
      intro i hi
      obtain ⟨x, hx, rfl⟩ := List.mem_map.mp hi
      exact determine_modes_index_bounds x (hval x hx)
    have hany : (xs.map (fun x => (determine_modes x).index)).any
        (fun i => decide (i < 0)) = false := by
      rw [List.any_eq_false]
      intro i hi
      simpa using not_lt.mpr (hbounds i hi).1
    have hnat : ∀ v ∈ (xs.map (fun x => (determine_modes x).index)).map Int.toNat,
        v < 16 := by
      intro v hv
      obtain ⟨i, hi, rfl⟩ := List.mem_map.mp hv
      have := hbounds i hi
      omega
    have hcounts : mode_counts xs = Except.ok
        ((List.range 16).map (fun i =>
          ((xs.map (fun x => (determine_modes x).index)).map Int.toNat).count i)) := by
      simp only [mode_counts, n_modes, hany, Bool.false_eq_true, if_false]
      rw [bincount_minlength _ hnat]
    have hcsum : ((List.range 16).map (fun i =>
        ((xs.map (fun x => (determine_modes x).index)).map Int.toNat).count i)).sum
        = xs.length := by
      rw [sum_range_count 16 _ hnat]
      simp
    have hpos : 0 < xs.length := List.length_pos.mpr hne
    -- abbreviations for the three stages
    set counts := (List.range 16).map (fun i =>
      ((xs.map (fun x => (determine_modes x).index)).map Int.toNat).count i)
      with hcdef
    set total : ℚ := ((counts.sum : ℕ) : ℚ) with htdef
    set raw := counts.map (fun c => ((c : ℕ) : ℚ) / total) with hrdef
    set clamped := apply_minimum_weight raw mw with hcldef
    have htotal : total = (xs.length : ℚ) := by rw [htdef, hcsum]
    have htpos : 0 < total := by
      rw [htotal]
      exact_mod_cast hpos
    have hraw_nonneg : ∀ w ∈ raw, 0 ≤ w := by
      intro w hw
      obtain ⟨c, _, rfl⟩ := List.mem_map.mp hw
      exact div_nonneg (Nat.cast_nonneg c) htpos.le
    have hraw_sum : raw.sum = 1 := by
      rw [hrdef, show (fun c : ℕ => ((c : ℕ) : ℚ) / total) =
        (fun x : ℚ => x / total) ∘ (fun c : ℕ => ((c : ℕ) : ℚ)) from rfl,
        ← List.map_map, list_map_div_sum, ← Nat.cast_list_sum]
      exact div_self htpos.ne.symm
    have hcl_nonneg : ∀ w ∈ clamped, 0 ≤ w := by
      intro w hw
      obtain ⟨v, hv, hvw⟩ := apply_minimum_weight_ge raw mw w hw
      exact le_trans (hraw_nonneg v hv) hvw
    have hcl_sum : 1 ≤ clamped.sum := by
      calc (1:ℚ) = raw.sum := hraw_sum.symm
        _ ≤ clamped.sum := apply_minimum_weight_sum_ge raw mw
    have hSpos : 0 < clamped.sum := lt_of_lt_of_le one_pos hcl_sum
    have hupd : update_mode_weights xs mw = Except.ok
        (clamped.map (fun w => w / clamped.sum)) := by
      unfold update_mode_weights
      rw [hcounts, ok_bind]
      rfl
    refine ⟨clamped.map (fun w => w / clamped.sum), hupd, ?_, ?_, ?_⟩
    · rw [List.length_map, hcldef, apply_minimum_weight_length, hrdef,
        List.length_map, hcdef, List.length_map, List.length_range]
      rfl
    · intro w hw
      obtain ⟨v, hv, rfl⟩ := List.mem_map.mp hw
      exact div_nonneg (hcl_nonneg v hv) hSpos.le
    · rw [list_map_div_sum]
      exact div_self hSpos.ne.symm
  · -- the pre-renormalisation floor
    intro f ws0 hf w hw
    simp only [apply_minimum_weight, if_neg hf] at hw
    obtain ⟨v, hv, rfl⟩ := List.mem_map.mp hw
    exact le_max_right v f

end LISAExtrinsicSymmetry

namespace LISAExtrinsicSymmetry

/-- Witness for C6 at the singleton batch whose sample has mode index 0,
with floor `1/10`. -/
theorem c6_update_weights_witness :
    (([⟨0, -(1/4), 0, 0, 0⟩] : List LisaSample) ≠ [] ∧
      (∀ x ∈ ([⟨0, -(1/4), 0, 0, 0⟩] : List LisaSample), canonicalStrict x)) ∧
    ((∃ ws : List ℚ,
        update_mode_weights [⟨0, -(1/4), 0, 0, 0⟩] (some (1/10)) =
          Except.ok ws ∧
        ws.length = n_modes ∧ (∀ w ∈ ws, 0 ≤ w) ∧ ws.sum = 1) ∧
      (∀ (f : ℚ) (ws0 : List ℚ), f ≠ 0 →
        ∀ w ∈ apply_minimum_weight ws0 (some f), f ≤ w)) :=
  ⟨⟨by simp, by simp [canonicalStrict]; norm_num⟩,
    c6_update_weights [⟨0, -(1/4), 0, 0, 0⟩] (some (1/10)) (by simp)
      (by simp [canonicalStrict]; norm_num)⟩

/-- Claim C6 counterexample: for the batch of one sample concentrated in
mode 0 and the floor `1/10`, the renormalised weight of every other mode is
`1/25`, which is below the floor by `3/50` — far beyond the `1e-12`
tolerance — so the floor is NOT respected post-renormalisation. -/
theorem c6_counterexample_floor_violated :
    update_mode_weights [⟨0, -(1/4), 0, 0, 0⟩] (some (1/10)) =
      Except.ok [2/5, 1/25, 1/25, 1/25, 1/25, 1/25, 1/25, 1/25, 1/25, 1/25,
        1/25, 1/25, 1/25, 1/25, 1/25, 1/25] ∧
    ((1:ℚ)/25 + 1/10 ^ 12 < 1/10) := by
  have hmc : mode_counts [⟨0, -(1/4), 0, 0, 0⟩] =
      Except.ok (bincount [(0:ℕ)] 16) := by
    norm_num [mode_counts, n_modes, determine_modes, digitize, lambda_bins,
      beta_bins, phase_bins, List.filter]
  have hbc : bincount [(0:ℕ)] 16 =
      [1, 0, 0, 0, 0, 0, 0, 0, 0, 0, 0, 0, 0, 0, 0, 0] := by decide
  rw [hbc] at hmc
  constructor
  · unfold update_mode_weights
    rw [hmc, ok_bind]
    norm_num [apply_minimum_weight, max_def]
    rfl
  · norm_num

end LISAExtrinsicSymmetry

namespace Registry

theorem dict_get_map_replace (k k2 : String) (v : Entry) (hne : k ≠ k2) :
    ∀ l : Reg,
      dict_get (l.map (fun e => if e.1 = k2 then (k2, v) else e)) k =
        dict_get l k := by
  have hk2 : decide (k2 = k) = false := decide_eq_false (fun hc => hne hc.symm)
  intro l
  induction l with
  | nil => rfl
  | cons e rest ih =>
      by_cases he : e.1 = k2
      · have he2 : decide (e.1 = k) = false :=
          decide_eq_false (fun hc => hne (he.symm.trans hc).symm)
        simp only [List.map_cons, if_pos he, dict_get, List.find?, hk2, he2]
        exact ih
      · by_cases hek : e.1 = k
        · simp only [List.map_cons, if_neg he, dict_get, List.find?,
            decide_eq_true hek]
        · simp only [List.map_cons, if_neg he, dict_get, List.find?,
            decide_eq_false hek]
          exact ih

theorem dict_get_append_single (k k2 : String) (v : Entry) (hne : k ≠ k2) :
    ∀ l : Reg, dict_get (l ++ [(k2, v)]) k = dict_get l k := by
  have hk2 : decide (k2 = k) = false := decide_eq_false (fun hc => hne hc.symm)
  intro l
  induction l with
  | nil =>
      simp only [List.nil_append, dict_get, List.find?, hk2]
  | cons e rest ih =>
      by_cases hek : e.1 = k
      · simp only [List.cons_append, dict_get, List.find?,
          decide_eq_true hek]
      · simp only [List.cons_append, dict_get, List.find?,
          decide_eq_false hek]
        exact ih

theorem dict_get_set_ne (d : Reg) (k k2 : String) (v : Entry)
    (hne : k ≠ k2) :
    dict_get (dict_set d k2 v) k = dict_get d k := by
  unfold dict_set
  split
  · exact dict_get_map_replace k k2 v hne d
  · exact dict_get_append_single k k2 v hne d

theorem dict_get_update_not_contains (k : String) :
    ∀ (other d : Reg), dict_contains other k = false →
      dict_get (dict_update d other) k = dict_get d k := by
  intro other
  induction other with
  | nil => intro d _; rfl
  | cons e rest ih =>
      intro d h
      simp only [dict_contains, List.any_cons, Bool.or_eq_false_iff] at h
      show dict_get (dict_update (dict_set d e.1 e.2) rest) k = dict_get d k
      rw [ih (dict_set d e.1 e.2) h.2,
        dict_get_set_ne d k e.1 e.2
          (fun hc => of_decide_eq_false h.1 hc.symm)]

end Registry

namespace Registry

/-- Claim C4 (amended): resolving the identifier "distance" through the
registry returns the domain-specific `DistanceReparameterisation` entry
PROVIDED the host-library defaults do not register a "distance" key (which
they do not, so the resolution observed in practice is the domain class).
The universal precedence statement of the claim fails: on a key collision
the HOST entry wins, because `known_reparameterisations.update(base)` is
Python `dict.update`, which overwrites the domain entries with the host
entries (see the counterexample). -/
theorem c4_registry_distance (base : Reg)
    (h : dict_contains base "distance" = false) :
    get_reparameterisation "distance" base =
      Except.ok (RClass.DistanceReparameterisation,
        [("boundary_inversion", KwVal.b true), ("detect_edges", KwVal.b true),
         ("inversion_type", KwVal.s "duplicate")]) := by
  have hknown : known_reparameterisations base = Except.ok (dict_update
      [("distance", (RClass.DistanceReparameterisation,
          [("boundary_inversion", KwVal.b true),
           ("detect_edges", KwVal.b true),
           ("inversion_type", KwVal.s "duplicate")])),
       ("time", (RClass.RescaleToBounds,
          [("offset", KwVal.b true), ("update_bounds", KwVal.b true)])),
       ("sky-ra-dec", (RClass.AnglePair, [("convention", KwVal.s "ra-dec")])),
       ("sky-az-zen", (RClass.AnglePair, [("convention", KwVal.s "az-zen")])),
       ("mass_ratio", (RClass.RescaleToBounds,
          [("detect_edges", KwVal.b true),
           ("boundary_inversion", KwVal.b true),
           ("inversion_type", KwVal.s "duplicate"),
           ("update_bounds", KwVal.b true)])),
       ("mass", (RClass.RescaleToBounds, [("update_bounds", KwVal.b true)])),
       ("delta_phase", (RClass.DeltaPhaseReparameterisation, [])),
       ("delta-phase", (RClass.DeltaPhaseReparameterisation, []))]
      base) := rfl
  unfold get_reparameterisation
  rw [hknown, ok_bind, dict_get_update_not_contains "distance" base _ h]
  rfl

/-- Witness for C4 at a host default registry holding generic keys only. -/
theorem c4_registry_distance_witness :
    dict_contains
      [("default", (RClass.Base "RescaleToBounds",
          ([] : List (String × KwVal)))),
       ("angle-pi", (RClass.Base "Angle", []))] "distance" = false ∧
    get_reparameterisation "distance"
      [("default", (RClass.Base "RescaleToBounds", [])),
       ("angle-pi", (RClass.Base "Angle", []))] =
      Except.ok (RClass.DistanceReparameterisation,
        [("boundary_inversion", KwVal.b true), ("detect_edges", KwVal.b true),
         ("inversion_type", KwVal.s "duplicate")]) :=
  ⟨rfl, c4_registry_distance _ rfl⟩

/-- Claim C4 counterexample: if the host defaults did register a "distance"
key, the merged registry would resolve "distance" to the HOST class, not the
domain class — the domain entry does not win the collision, because
`dict.update` overwrites it. -/
theorem c4_counterexample_host_entry_wins :
    get_reparameterisation "distance"
      [("distance", (RClass.Base "BaseDistance", []))] =
      Except.ok (RClass.Base "BaseDistance", []) ∧
    RClass.Base "BaseDistance" ≠ RClass.DistanceReparameterisation :=
  ⟨rfl, by decide⟩

end Registry
